import Mathlib

/-!
# Verification of the DNAm microscope pipeline

A shallow embedding of `microscope-checkpoint.py` (single-file DNAm
classification toolkit).  Missing values (`NaN`) are modelled as `none` in
`Option ℚ`; real arithmetic is exact rational arithmetic.  A pandas
`DataFrame` is modelled column-major as a list of named columns, each a list
of per-sample optional values; a numpy 2-D array is row-major
(`List (List (Option ℚ))`).  External library calls (scipy statistical
tests, the scikit-learn regression solver, and the irrational square root
inside `StandardScaler`) are abstracted as explicit function parameters;
everything the repository itself computes is embedded directly.
-/

-- Rational arithmetic is sealed in Batteries; reopen it so that concrete
-- runs of the embedded pipeline evaluate inside `decide`.
set_option allowUnsafeReducibility true in
attribute [semireducible] Rat.mul Rat.inv Rat.add Rat.sub

deriving instance DecidableEq for Except

/-- A named DataFrame column: column name and per-sample values
(`none` = NaN). -/
abbrev Col : Type := String × List (Option ℚ)

/-- Column-major DataFrame: rows are samples, columns are features. -/
abbrev DFrame : Type := List Col

/-- Row-major numpy-style matrix of optional rationals (`none` = NaN). -/
abbrev MatO : Type := List (List (Option ℚ))

/-- First-component lookup in an association list (models pandas
label-based indexing / `.loc` on a unique index: first match wins). -/
def lookupFst {β : Type} (nm : String) : List (String × β) → Option β
  | [] => none
  | c :: t => if c.1 = nm then some c.2 else lookupFst nm t

/-- Column names of a DataFrame (`df.columns`). -/
def colNames (df : DFrame) : List String := df.map Prod.fst

/-- Number of rows of a column-major DataFrame (length of its first
column; `0` for a DataFrame with no columns). -/
def numRows (df : DFrame) : ℕ :=
  match df with
  | [] => 0
  | c :: _ => c.2.length

/-- `df.iloc[idxs]`: positional row selection, in the given index order. -/
def selectRows (idxs : List ℕ) (df : DFrame) : DFrame :=
  df.map (fun c => (c.1, idxs.map (fun i => c.2.getD i none)))

/-- Positional selection from a plain list (models `series.iloc[idxs]`). -/
def selectIdx (idxs : List ℕ) (xs : List (Option ℚ)) : List (Option ℚ) :=
  idxs.map (fun i => xs.getD i none)

/-- `df.dropna(how="any", axis=1)`: keep exactly the columns with no
missing entry.  Source: `microscope-checkpoint.py` line 207. -/
def dropNaAnyCols (df : DFrame) : DFrame :=
  df.filter (fun c => c.2.all Option.isSome)

/-- `df.loc[:, names]`: restrict a DataFrame to the named columns, in the
order of `names`.  Source: `microscope-checkpoint.py` lines 208, 228-229. -/
def restrictCols (names : List String) (df : DFrame) : DFrame :=
  names.filterMap (fun nm => (lookupFst nm df).map (fun vs => (nm, vs)))

/-- `df.values`: row-major matrix of a column-major DataFrame. -/
def matOf (df : DFrame) : MatO :=
  (List.range (numRows df)).map (fun i => df.map (fun c => c.2.getD i none))

/-- Mean of a list of rationals (`sum / length`). -/
def meanQ (xs : List ℚ) : ℚ := xs.sum / (xs.length : ℚ)

/-- pandas `Series.mean()` over one column: NaN entries are skipped
(`skipna=True` default); an all-NaN column has a NaN mean. -/
def meanOpt (vs : List (Option ℚ)) : Option ℚ :=
  let obs := vs.filterMap id
  if obs.length = 0 then none else some (meanQ obs)

/-- Insert into a sorted list of rationals (ascending). -/
def insertLe (x : ℚ) : List ℚ → List ℚ
  | [] => [x]
  | y :: ys => if x ≤ y then x :: y :: ys else y :: insertLe x ys

/-- Insertion sort of rationals (ascending). -/
def sortQ : List ℚ → List ℚ
  | [] => []
  | x :: xs => insertLe x (sortQ xs)

/-- pandas `Series.median()` over one column: NaN skipped; middle element
for odd counts, average of the two middle elements for even counts. -/
def medianOpt (vs : List (Option ℚ)) : Option ℚ :=
  let obs := sortQ (vs.filterMap id)
  let n := obs.length
  if n = 0 then none
  else if n % 2 = 1 then some (obs.getD (n / 2) 0)
  else some ((obs.getD (n / 2 - 1) 0 + obs.getD (n / 2) 0) / 2)

/-- `feature_imputation_values(df, nan_policy)` (source lines 331-341):
per-feature fill value by mean / median / zeros; an unrecognized policy
leaves `imp_vals` unbound, so the function raises (modelled as an error). -/
def feature_imputation_values (df : DFrame) (nan_policy : String) :
    Except String (List (Option ℚ)) :=
  if nan_policy = "impute_by_mean" then .ok (df.map (fun c => meanOpt c.2))
  else if nan_policy = "impute_by_median" then .ok (df.map (fun c => medianOpt c.2))
  else if nan_policy = "zeros" then .ok (df.map (fun _ => some 0))
  else .error "Unimplemented/unrecognized nan_policy defined"

/-- One row of `np.where(np.isnan(array), values, array)`: each missing
entry at column `j` is replaced by `values[j]`, observed entries kept. -/
def fillRow : List (Option ℚ) → List (Option ℚ) → List (Option ℚ)
  | [], _ => []
  | x :: xs, vals =>
      (if x.isSome then x else vals.headD none) :: fillRow xs vals.tail

/-- `numba_fillna(array, values)` (source lines 345-349): if the array
contains a NaN, replace every NaN entry by the fill value of its column;
otherwise return the array unchanged. -/
def numba_fillna (array : MatO) (values : List (Option ℚ)) : MatO :=
  if array.any (fun r => r.any Option.isNone) then
    array.map (fun r => fillRow r values)
  else array

/-- DataFrame reconstruction of the `numba_fillna` application
(`pd.DataFrame(data=numba_fillna(df.values, imp_vals.values), ...)`,
source lines 215-216): each column is filled with its own value. -/
def fillnaDF (df : DFrame) (vals : List (Option ℚ)) : DFrame :=
  List.zipWith
    (fun c v => (c.1, c.2.map (fun x => if x.isSome then x else v))) df vals

/-- Indices at which the label series equals `v`, ascending
(`np.where(y == v)[0]`, source line 164): a NaN label compares unequal to
every number, so missing-target rows land in neither group. -/
def whereEq (y : List (Option ℚ)) (v : ℚ) : List ℕ :=
  (List.range y.length).filter (fun i => decide (y.getD i none = some v))

/-- `np.where(pvals < thresh)[0]`: ascending indices of the entries
strictly below the threshold. -/
def npWhere (pvals : List ℚ) (thresh : ℚ) : List ℕ :=
  (List.range pvals.length).filter (fun i => decide (pvals.getD i thresh < thresh))

/-- `itertools.compress(data, selectors)`: keep `data[k]` when
`selectors[k]` is truthy (nonzero), stopping at the shorter sequence. -/
def itCompress {α : Type} (data : List α) (sel : List ℕ) : List α :=
  (data.zip sel).filterMap (fun ds => if ds.2 ≠ 0 then some ds.1 else none)

/-- `select_features(df, y, by, pval_thresh)` (source lines 161-173).
The scipy p-value computation (`stats.mannwhitneyu` / `stats.ttest_ind`
applied to the label-0 and label-1 row blocks) is an external numerical
routine, abstracted as the oracle `pvalsOf method rows0 rows1` returning
one p-value per feature column.  Everything after the statistical call is
embedded verbatim: the source compresses `df.columns` with the *index
array* `np.where(p_vals < pval_thresh)[0]`, and an unrecognized method
falls through to retaining every column. -/
def select_features (df : DFrame) (y : List (Option ℚ))
    (pvalsOf : String → DFrame → DFrame → List ℚ)
    (method : String) (pval_thresh : ℚ) : List String :=
  let rows0 := selectRows (whereEq y 0) df
  let rows1 := selectRows (whereEq y 1) df
  if method = "wilcox" then
    itCompress (colNames df) (npWhere (pvalsOf "wilcox" rows0 rows1) pval_thresh)
  else if method = "ttest" then
    itCompress (colNames df) (npWhere (pvalsOf "ttest" rows0 rows1) pval_thresh)
  else colNames df

/-- The `Cs` argument of `LogisticRegressionCV`: either an explicit grid
of inverse-regularization strengths, represented by their base-10
exponents (`expGrid es` stands for {10^e : e ∈ es}), or an integer count. -/
inductive CsSpec where
  | expGrid (exps : List ℚ)
  | count (n : ℕ)
deriving DecidableEq

/-- `np.linspace a b n` over ℚ (the exponent grid under `np.logspace`). -/
def linspaceQ (a b : ℚ) (n : ℕ) : List ℚ :=
  (List.range n).map (fun i => a + (b - a) * (i : ℚ) / ((n : ℚ) - 1))

/-- The fields of the `LogisticRegressionCV` object built by
`model_definition` that the specification talks about. -/
structure ModelCfg where
  penalty : String
  Cs : CsSpec
  l1_ratios : Option (List ℚ)
  solver : String
  class_weight : Option String
  max_iter : ℕ
  cv : ℕ
  random_state : ℕ
deriving DecidableEq

/-- `model_definition(penalty, ...)` (source lines 259-283).
`np.logspace(-4, 6, num=10)` is `expGrid (linspaceQ (-4) 6 10)`; the
literal `Cs=[100000.0]` of the no-penalty branch is `expGrid [5]`
(10^5 = 1e5); the `l2` branch passes the integer `Cs=10`, and the
`elasticnet` branch passes no `Cs` at all, so it gets the library default
integer 10.  An unrecognized penalty only prints and leaves `model`
unbound, so the function raises (modelled as an error). -/
def model_definition (penalty : Option String) (seed internalCV_folds : ℕ)
    (Cs : Option CsSpec) (l1_ratios : Option (List ℚ)) :
    Except String ModelCfg :=
  let l1_Cs := Cs.getD (.expGrid (linspaceQ (-4) 6 10))
  let l2_Cs := Cs.getD (.count 10)
  let ratios := l1_ratios.getD [1/10, 1/2, 9/10]
  match penalty with
  | none =>
      .ok ⟨"l2", .expGrid [5], none, "lbfgs", some "balanced", 1000,
        internalCV_folds, seed⟩
  | some p =>
      if p = "l1" then
        .ok ⟨"l1", l1_Cs, none, "liblinear", some "balanced", 1000,
          internalCV_folds, seed⟩
      else if p = "l2" then
        .ok ⟨"l2", l2_Cs, none, "lbfgs", some "balanced", 1000,
          internalCV_folds, seed⟩
      else if p = "elasticnet" then
        .ok ⟨"elasticnet", .count 10, some ratios, "saga", some "balanced",
          1000, internalCV_folds, seed⟩
      else .error "unrecognized penalty"

/-- Documented scikit-learn semantics of `Cs`: an explicit grid is
searched as-is, while an integer `n` means `n` values log-spaced between
1e-4 and 1e4.  Returns the base-10 exponents of the searched grid. -/
def effectiveCsExps : CsSpec → List ℚ
  | .expGrid es => es
  | .count n => linspaceQ (-4) 4 n

/-- Population variance (`ddof = 0`, as used by `StandardScaler`). -/
def varPop (xs : List ℚ) : ℚ :=
  (xs.map (fun x => (x - meanQ xs) ^ 2)).sum / (xs.length : ℚ)

/-- One feature column through the fitted scaler transform,
`(x - mean) / scale` with `scale = σ` (the scalar form of
`StandardScaler.transform` on a training column, source lines 286-292). -/
def standardizeCol (xs : List ℚ) (σ : ℚ) : List ℚ :=
  xs.map (fun x => (x - meanQ xs) / σ)

/-- NaN-propagating subtraction (numpy arithmetic). -/
def oSub : Option ℚ → Option ℚ → Option ℚ
  | some a, some b => some (a - b)
  | _, _ => none

/-- NaN-propagating division (numpy arithmetic). -/
def oDiv : Option ℚ → Option ℚ → Option ℚ
  | some a, some b => some (a / b)
  | _, _ => none

/-- Columns of a row-major matrix (width taken from the first row). -/
def colsOfMat (X : MatO) : List (List (Option ℚ)) :=
  (List.range (X.headD []).length).map (fun j => X.map (fun r => r.getD j none))

/-- numpy column mean: NaN propagates (any missing entry poisons it). -/
def meanProp (vs : List (Option ℚ)) : Option ℚ :=
  if vs.all Option.isSome then some (meanQ (vs.filterMap id)) else none

/-- numpy column population variance: NaN propagates. -/
def varProp (vs : List (Option ℚ)) : Option ℚ :=
  if vs.all Option.isSome then some (varPop (vs.filterMap id)) else none

/-- The state stored by a fitted `StandardScaler`: per-feature mean and
squared scale (`scale_ ** 2`; zero-variance features get scale 1, per
scikit-learn's handling of zeros in scale). -/
structure Scaler where
  mean : List (Option ℚ)
  scaleSq : List (Option ℚ)
deriving DecidableEq

/-- `StandardScaler().fit(X)`: record per-feature mean and squared scale
from the training matrix alone. -/
def scalerFit (X : MatO) : Scaler :=
  ⟨(colsOfMat X).map meanProp,
   (colsOfMat X).map (fun c => (varProp c).map (fun v => if v = 0 then 1 else v))⟩

/-- `scaler.transform(X)`: `(x - mean_) / scale_` entrywise.  `sqr`
abstracts the irrational square root turning the stored squared scale
into the scale (any function with `sqr v * sqr v = v` on the occurring
values instantiates it); the stored parameters are inputs only. -/
def scalerTransformWith (sqr : ℚ → ℚ) (s : Scaler) (X : MatO) : MatO :=
  X.map (fun r =>
    (r.zip (s.mean.zip s.scaleSq)).map
      (fun p => oDiv (oSub p.1 p.2.1) (p.2.2.map sqr)))

/-- `scale_train_data(X_train)` (source lines 286-292): fit a scaler on
the training matrix and return the scaled training matrix together with
the scaler itself. -/
def scale_train_data (sqr : ℚ → ℚ) (X_train : MatO) : MatO × Scaler :=
  let scaler := scalerFit X_train
  (scalerTransformWith sqr scaler X_train, scaler)

/-- What `train_test` returns (minus the opaque fitted model object):
the scaler and the two per-test-sample prediction vectors. -/
structure TTRes where
  scaler : Scaler
  y_pred : List ℚ
  y_pred_prob : List ℚ
deriving DecidableEq

/-- `train_test(X_train, X_test, y_train, ...)` (source lines 295-306):
scale train, transform test with the same scaler, build the model config,
fit on the (scaled) training matrix with the *full* training label vector,
and predict on the scaled test matrix.  The solver itself is external:
`fitPredict cfg Xtrain ytrain Xtest` abstracts
`model.fit(...)` followed by `model.predict` / `model.predict_proba`. -/
def train_test (sqr : ℚ → ℚ)
    (fitPredict : ModelCfg → MatO → List (Option ℚ) → MatO → List ℚ × List ℚ)
    (penalty : Option String) (seed internalCV_folds : ℕ)
    (X_train X_test : MatO) (y_train : List (Option ℚ)) :
    Except String TTRes :=
  let p := scale_train_data sqr X_train
  let Xts := scalerTransformWith sqr p.2 X_test
  match model_definition penalty seed internalCV_folds none none with
  | .error e => .error e
  | .ok cfg =>
      let pr := fitPredict cfg p.1 y_train Xts
      .ok ⟨p.2, pr.1, pr.2⟩

/-- Result of the per-fold NaN handling inside `cv_train_test`. -/
structure FoldRes where
  train : DFrame
  test : DFrame
  impVals : Option (List (Option ℚ))
deriving DecidableEq

/-- The NaN-handling prefix of one CV fold (source lines 206-216): drop
train columns with any missing value, restrict test to the surviving
columns, then (if a policy is set) compute fill values from the training
partition and apply them to both partitions. -/
def cvFoldStep (df_train df_test : DFrame) (nan_policy : Option String) :
    Except String FoldRes :=
  let tr := dropNaAnyCols df_train
  let te := restrictCols (colNames tr) df_test
  match nan_policy with
  | none => .ok ⟨tr, te, none⟩
  | some pol =>
      match feature_imputation_values tr pol with
      | .error e => .error e
      | .ok iv => .ok ⟨fillnaDF tr iv, fillnaDF te iv, some iv⟩

/-- The outer CV strategy: `KFold(n_splits=k)` or `LeaveOneOut()`. -/
inductive CVChoice where
  | loo
  | kfold (k : ℕ)
deriving DecidableEq

/-- Test-index blocks of scikit-learn `KFold(n_splits=k)` over `n`
samples: consecutive blocks, the first `n % k` of size `n / k + 1`, the
rest of size `n / k`.  `LeaveOneOut` is `KFold(n)`. -/
def kfoldTestFolds (n k : ℕ) : List (List ℕ) :=
  let base := n / k
  let extra := n % k
  let sizes := (List.range k).map (fun i => if i < extra then base + 1 else base)
  (sizes.foldl
    (fun (acc : List (List ℕ) × ℕ) sz =>
      (acc.1 ++ [(List.range sz).map (fun j => j + acc.2)], acc.2 + sz))
    ([], 0)).1

/-- Per-fold record appended by the CV loop (source lines 231-242):
scaler, retained features, unscaled test matrix, test labels, and the two
prediction vectors for this fold. -/
structure FoldOut where
  scaler : Scaler
  feats : List String
  Xtest : MatO
  ytest : List (Option ℚ)
  y_pred : List ℚ
  y_pred_prob : List ℚ
deriving DecidableEq

/-- One iteration of the CV loop of `cv_train_test` (source lines
190-246), for the given test-index block. -/
def cvFold (sqr : ℚ → ℚ)
    (pvalsOf : String → DFrame → DFrame → List ℚ)
    (fitPredict : ModelCfg → MatO → List (Option ℚ) → MatO → List ℚ × List ℚ)
    (df : DFrame) (y : List (Option ℚ)) (penalty : Option String)
    (internalCV_folds : ℕ) (feat_selection : Option String) (pthresh : ℚ)
    (nan_policy : Option String) (teIdx : List ℕ) : Except String FoldOut :=
  let n := numRows df
  let trIdx := (List.range n).filter (fun i => !(teIdx.contains i))
  let df_train := selectRows trIdx df
  let df_test := selectRows teIdx df
  let y_train := selectIdx trIdx y
  let y_test := selectIdx teIdx y
  match cvFoldStep df_train df_test nan_policy with
  | .error e => .error e
  | .ok fr =>
      let feats :=
        match feat_selection with
        | some m => select_features fr.train y_train pvalsOf m pthresh
        | none => colNames fr.train
      let Xtr := matOf (restrictCols feats fr.train)
      let Xte := matOf (restrictCols feats fr.test)
      match train_test sqr fitPredict penalty 42 internalCV_folds Xtr Xte y_train with
      | .error e => .error e
      | .ok tt => .ok ⟨tt.scaler, feats, Xte, y_test, tt.y_pred, tt.y_pred_prob⟩

/-- All folds of `cv_train_test`, in fold order; the first in-fold error
aborts the run. -/
def cvFoldResults (sqr : ℚ → ℚ)
    (pvalsOf : String → DFrame → DFrame → List ℚ)
    (fitPredict : ModelCfg → MatO → List (Option ℚ) → MatO → List ℚ × List ℚ)
    (df : DFrame) (y : List (Option ℚ)) (cvc : CVChoice)
    (penalty : Option String) (internalCV_folds : ℕ)
    (feat_selection : Option String) (pthresh : ℚ)
    (nan_policy : Option String) : Except String (List FoldOut) :=
  let n := numRows df
  let folds := match cvc with
    | .loo => kfoldTestFolds n n
    | .kfold k => kfoldTestFolds n k
  folds.mapM
    (cvFold sqr pvalsOf fitPredict df y penalty internalCV_folds
      feat_selection pthresh nan_policy)

/-- The `outputs` dictionary of `cv_train_test` (source line 254), minus
the opaque fitted model objects: note `y_pred` is flattened across folds
while `y_pred_prob` is stored as the per-fold lists. -/
structure CVOutputs where
  scalers : List Scaler
  features_used : List (List String)
  X_test_data : List MatO
  y_test : List (List (Option ℚ))
  y_pred : List ℚ
  y_pred_prob : List (List ℚ)
deriving DecidableEq

/-- `cv_train_test(Dataset, ...)` (source lines 176-256): run every fold,
then assemble the outputs, flattening the per-fold class predictions into
one list (source line 249) and keeping the per-fold probability lists
as-is (the flattening on line 250 is commented out). -/
def cv_train_test (sqr : ℚ → ℚ)
    (pvalsOf : String → DFrame → DFrame → List ℚ)
    (fitPredict : ModelCfg → MatO → List (Option ℚ) → MatO → List ℚ × List ℚ)
    (df : DFrame) (y : List (Option ℚ)) (cvc : CVChoice)
    (penalty : Option String) (internalCV_folds : ℕ)
    (feat_selection : Option String) (pthresh : ℚ)
    (nan_policy : Option String) : Except String CVOutputs :=
  (cvFoldResults sqr pvalsOf fitPredict df y cvc penalty internalCV_folds
      feat_selection pthresh nan_policy).map
    (fun rs =>
      ⟨rs.map FoldOut.scaler, rs.map FoldOut.feats, rs.map FoldOut.Xtest,
       rs.map FoldOut.ytest, (rs.map FoldOut.y_pred).flatten,
       rs.map FoldOut.y_pred_prob⟩)

/-- `Dataset.add_target_lables` (source lines 69-90).  `dfIndex` is the
sample order of `self.df`; `groups` is the sample → group-label table.
Per-sample original labels come from label lookup (missing for samples
absent from the table).  If both "case" and "control" occur among the
labels, every labelled sample maps to 0 for "control" and 1 for anything
else, and unlabelled samples stay missing; otherwise `self.y` is never
assigned and the following `self.y.value_counts()` raises (error). -/
def add_target_lables (dfIndex : List String)
    (groups : List (String × String)) : Except String (List (Option ℚ)) :=
  let origLabels := dfIndex.map (fun s => lookupFst s groups)
  let names := (origLabels.filterMap id).dedup
  if "case" ∈ names ∧ "control" ∈ names then
    .ok (origLabels.map (fun o =>
      o.map (fun l => if l = "control" then (0 : ℚ) else 1)))
  else
    .error (if "case" ∈ names ∨ "control" ∈ names then
      "Only one label recognized" else "Unimplemented target labels in dataset")

-- Basic lemmas about `fillRow`.

theorem fillRow_getElem (row vals : List (Option ℚ)) (j : ℕ) (q : ℚ)
    (h : row[j]? = some (some q)) : (fillRow row vals)[j]? = some (some q) := by
  induction row generalizing j vals with
  | nil => simp at h
  | cons x xs ih =>
    cases j with
    | zero =>
      simp only [List.getElem?_cons_zero, Option.some_inj] at h
      subst h
      simp [fillRow]
    | succ n =>
      simp only [List.getElem?_cons_succ] at h
      simpa [fillRow] using ih vals.tail n h

/-- C10 (confirmed): `numba_fillna` leaves every non-missing entry
unchanged, and on a matrix with no missing entry it returns the input
array unchanged. -/
theorem numba_fillna_preserves_observed (array : MatO) (values : List (Option ℚ)) :
    (∀ (i j : ℕ) (q : ℚ), (array[i]?.bind (fun r : List (Option ℚ) => r[j]?)) = some (some q) →
      ((numba_fillna array values)[i]?.bind (fun r : List (Option ℚ) => r[j]?)) = some (some q))
    ∧ (array.all (fun r => r.all Option.isSome) →
        numba_fillna array values = array) := by
  constructor
  · intro i j q h
    unfold numba_fillna
    split
    · rw [List.getElem?_map]
      cases hr : array[i]? with
      | none => rw [hr] at h; simp at h
      | some row =>
        rw [hr] at h
        exact fillRow_getElem row values j q h
    · exact h
  · intro hall
    unfold numba_fillna
    split
    · next hany =>
        exfalso
        rcases List.any_eq_true.mp hany with ⟨r, hr, hx⟩
        rcases List.any_eq_true.mp hx with ⟨x, hxr, hnone⟩
        have hs := (List.all_eq_true.mp ((List.all_eq_true.mp hall) r hr)) x hxr
        cases x <;> simp_all
    · rfl

/-- Witness for C10 at a concrete matrix with one missing entry. -/
theorem numba_fillna_preserves_observed_w :
    (([[some 1, none], [some 2, some 3]] : MatO)[0]?.bind (fun r => r[0]?))
        = some (some 1)
    ∧ ((numba_fillna [[some 1, none], [some 2, some 3]]
          [some 9, some 8])[0]?.bind (fun r => r[0]?)) = some (some 1) :=
  ⟨by decide,
   (numba_fillna_preserves_observed [[some 1, none], [some 2, some 3]]
      [some 9, some 8]).1 0 0 1 (by decide)⟩

/-- C2 (code_bug): evaluated at a concrete input where feature "a" has
two-group p-value 0.001, strictly below the threshold 0.01, the selector
returns no features at all: the source compresses the column list with
the numpy *index array* `np.where(p_vals < thresh)[0] = [0]` instead of a
boolean mask, so `itertools.compress` reads the index 0 as falsy and
drops column "a". -/
theorem select_features_compress_bug :
    select_features [("a", [some 0, some 1]), ("b", [some 0, some 1])]
        [some 0, some 1] (fun _ _ _ => [1/1000, 1/2]) "wilcox" (1/100) = []
    ∧ ((1 : ℚ)/1000 < 1/100) := by decide

/-- C3 (counterexample): for penalty `l2` the code passes the integer
`Cs=10`, whose documented effect is a 10-value log-spaced grid spanning
1e-4 to **1e4** — not the 1e-4 to 1e6 grid the claim asserts. -/
theorem model_definition_l2_grid_cex :
    (model_definition (some "l2") 42 5 none none).map
        (fun c => effectiveCsExps c.Cs) = .ok (linspaceQ (-4) 4 10)
    ∧ linspaceQ (-4) 4 10 ≠ linspaceQ (-4) 6 10 := by decide

/-- C3 (amended): penalty `l1` searches the explicit 10-value log-spaced
grid spanning 1e-4 to 1e6; penalty `l2` searches the 10-value log-spaced
default grid spanning 1e-4 to 1e4; `elasticnet` searches mixing ratios
exactly {0.1, 0.5, 0.9}. -/
theorem model_definition_grid_amended :
    (model_definition (some "l1") 42 5 none none).map
        (fun c => effectiveCsExps c.Cs) = .ok (linspaceQ (-4) 6 10)
    ∧ (model_definition (some "l2") 42 5 none none).map
        (fun c => effectiveCsExps c.Cs) = .ok (linspaceQ (-4) 4 10)
    ∧ (model_definition (some "elasticnet") 42 5 none none).map
        (fun c => c.l1_ratios) = .ok (some [1/10, 1/2, 9/10]) := by decide

/-- C4 (counterexample): sample "s3" carries the out-of-vocabulary label
"other", yet its binary target is 1, not missing: with both "case" and
"control" present, the code maps every non-"control" label — recognized
or not — to 1. -/
theorem add_target_lables_other_label_cex :
    add_target_lables ["s1", "s2", "s3"]
        [("s1", "case"), ("s2", "control"), ("s3", "other")]
      = .ok [some 1, some 0, some 1]
    ∧ ("other" ≠ "case" ∧ "other" ≠ "control") := by decide

/-- C6 (counterexample): the unrecognized feature-selection method
"anova" does not produce an error: `select_features` silently proceeds,
returning every column — the same output as no feature selection. -/
theorem select_features_unrecognized_cex :
    select_features [("a", [some 0, some 1]), ("b", [some 0, some 1])]
        [some 0, some 1] (fun _ _ _ => [1/1000, 1/2]) "anova" (1/100)
      = ["a", "b"] := by decide

/-- C4 (amended): the binary target is defined exactly for samples
present in both the matrix index and the group table — samples without a
group entry stay missing — and, when target assignment succeeds (both
"case" and "control" occur among the labels), every labelled sample maps
to 0 for label "control" and to 1 for any other label, including labels
outside the recognized vocabulary. -/
theorem add_target_lables_amended (dfIndex : List String)
    (groups : List (String × String)) (res : List (Option ℚ))
    (h : add_target_lables dfIndex groups = .ok res) :
    res.length = dfIndex.length
    ∧ ∀ (i : ℕ) (s : String), dfIndex[i]? = some s →
        (lookupFst s groups = none → res[i]? = some none)
        ∧ ∀ l, lookupFst s groups = some l →
            res[i]? = some (some (if l = "control" then 0 else 1)) := by
  simp only [add_target_lables] at h
  split at h
  · injection h with h
    subst h
    constructor
    · simp
    · intro i s hs
      constructor
      · intro hl
        rw [List.getElem?_map, List.getElem?_map, hs]
        simp [hl]
      · intro l hl
        rw [List.getElem?_map, List.getElem?_map, hs]
        simp [hl]
  · exact absurd h (by simp)

/-- Witness for C4 (amended) at a concrete two-sample dataset. -/
theorem add_target_lables_amended_w :
    add_target_lables ["s1", "s2"] [("s1", "case"), ("s2", "control")]
        = .ok [some 1, some 0]
    ∧ ([some 1, some 0] : List (Option ℚ)).length = ["s1", "s2"].length :=
  ⟨by decide, (add_target_lables_amended ["s1", "s2"]
      [("s1", "case"), ("s2", "control")] [some 1, some 0] (by decide)).1⟩

/-- C6 (amended): an unrecognized imputation policy and an unrecognized
penalty each abort with an error (the source leaves the result variable
unbound, raising), but an unrecognized feature-selection method does
*not*: `select_features` silently retains every column, the same output
as the no-selection default. -/
theorem config_errors_amended :
    (∀ (df : DFrame) (s : String), s ≠ "impute_by_mean" →
        s ≠ "impute_by_median" → s ≠ "zeros" →
        feature_imputation_values df s
          = .error "Unimplemented/unrecognized nan_policy defined")
    ∧ (∀ (p : String) (seed folds : ℕ) (cs : Option CsSpec)
          (lr : Option (List ℚ)), p ≠ "l1" → p ≠ "l2" → p ≠ "elasticnet" →
        model_definition (some p) seed folds cs lr
          = .error "unrecognized penalty")
    ∧ (∀ (df : DFrame) (y : List (Option ℚ))
          (pv : String → DFrame → DFrame → List ℚ) (m : String) (th : ℚ),
        m ≠ "wilcox" → m ≠ "ttest" →
        select_features df y pv m th = colNames df) := by
  refine ⟨?_, ?_, ?_⟩
  · intro df s h1 h2 h3
    simp [feature_imputation_values, h1, h2, h3]
  · intro p seed folds cs lr h1 h2 h3
    simp [model_definition, h1, h2, h3]
  · intro df y pv m th h1 h2
    simp [select_features, h1, h2]

/-- Witness for C6 (amended) at the concrete policy string "bogus". -/
theorem config_errors_amended_w :
    ("bogus" : String) ≠ "impute_by_mean"
    ∧ feature_imputation_values [] "bogus"
        = .error "Unimplemented/unrecognized nan_policy defined" :=
  ⟨by decide,
   config_errors_amended.1 [] "bogus" (by decide) (by decide) (by decide)⟩

/-- C1 (confirmed): in a CV fold, for each recognized imputation policy,
the per-feature fill values are computed from the training partition
alone — replacing the test partition by any other leaves them unchanged —
and exactly those fill values are applied to both the column-dropped
training matrix and the correspondingly restricted test matrix. -/
theorem cv_imputation_no_test_leakage (pol : String)
    (train test1 test2 : DFrame)
    (hp : pol = "impute_by_mean" ∨ pol = "impute_by_median" ∨ pol = "zeros") :
    (cvFoldStep train test1 (some pol)).map FoldRes.impVals
      = (cvFoldStep train test2 (some pol)).map FoldRes.impVals
    ∧ ∃ iv, feature_imputation_values (dropNaAnyCols train) pol = .ok iv
        ∧ cvFoldStep train test1 (some pol)
            = .ok ⟨fillnaDF (dropNaAnyCols train) iv,
                   fillnaDF (restrictCols (colNames (dropNaAnyCols train)) test1) iv,
                   some iv⟩ := by
  rcases hp with h | h | h <;> subst h <;>
    exact ⟨rfl, ⟨_, rfl, rfl⟩⟩

/-- Witness for C1 at a concrete fold with two different test partitions. -/
theorem cv_imputation_no_test_leakage_w :
    (("zeros" : String) = "impute_by_mean" ∨ ("zeros" : String) = "impute_by_median"
      ∨ ("zeros" : String) = "zeros")
    ∧ (cvFoldStep [("a", [some 1])] [("a", [some 2])] (some "zeros")).map
          FoldRes.impVals
        = (cvFoldStep [("a", [some 1])] [("a", [none])] (some "zeros")).map
          FoldRes.impVals :=
  ⟨by decide,
   (cv_imputation_no_test_leakage "zeros" [("a", [some 1])] [("a", [some 2])]
      [("a", [none])] (by decide)).1⟩

/-- C5 (counterexample): a concrete 4-sample, 2-fold run in which the
per-sample class predictions are flattened into one 4-entry sequence, but
the positive-class probabilities are returned as the 2 per-fold lists —
not as one flat per-sample sequence (which would have 4 entries). -/
theorem cv_pred_prob_not_flat_cex :
    (cv_train_test id (fun _ _ _ => [])
        (fun _ _ _ Xte => (Xte.map (fun _ => (0 : ℚ)), Xte.map (fun _ => (1 : ℚ)/2)))
        [("f", [some 0, some 2, some 0, some 2])]
        [some 0, some 1, some 0, some 1] (.kfold 2) (some "l1") 5 none
        (1/100) none).map (fun o => (o.y_pred, o.y_pred_prob))
      = .ok ([0, 0, 0, 0], [[1/2, 1/2], [1/2, 1/2]])
    ∧ ([[(1 : ℚ)/2, 1/2], [1/2, 1/2]] : List (List ℚ)).length
        ≠ ([0, 0, 0, 0] : List ℚ).length := by decide

/-- C5 (amended): after a CV run, the per-sample predicted classes are
aggregated into one flat sequence by concatenation in fold order, while
the positive-class probabilities are returned as the list of per-fold
probability lists (in fold order), not flattened. -/
theorem cv_aggregation_amended (sqr : ℚ → ℚ)
    (pvalsOf : String → DFrame → DFrame → List ℚ)
    (fitPredict : ModelCfg → MatO → List (Option ℚ) → MatO → List ℚ × List ℚ)
    (df : DFrame) (y : List (Option ℚ)) (cvc : CVChoice)
    (penalty : Option String) (folds : ℕ) (fsel : Option String)
    (pthresh : ℚ) (npol : Option String) (rs : List FoldOut)
    (h : cvFoldResults sqr pvalsOf fitPredict df y cvc penalty folds fsel
          pthresh npol = .ok rs) :
    cv_train_test sqr pvalsOf fitPredict df y cvc penalty folds fsel
        pthresh npol
      = .ok ⟨rs.map FoldOut.scaler, rs.map FoldOut.feats,
             rs.map FoldOut.Xtest, rs.map FoldOut.ytest,
             (rs.map FoldOut.y_pred).flatten, rs.map FoldOut.y_pred_prob⟩ := by
  unfold cv_train_test
  rw [h]
  rfl

/-- Witness for C5 (amended) at the concrete 4-sample, 2-fold run. -/
theorem cv_aggregation_amended_w :
    cvFoldResults id (fun _ _ _ => [])
        (fun _ _ _ Xte => (Xte.map (fun _ => (0 : ℚ)), Xte.map (fun _ => (1 : ℚ)/2)))
        [("f", [some 0, some 2, some 0, some 2])]
        [some 0, some 1, some 0, some 1] (.kfold 2) (some "l1") 5 none
        (1/100) none
      = .ok [⟨⟨[some 1], [some 1]⟩, ["f"], [[some 0], [some 2]],
              [some 0, some 1], [0, 0], [1/2, 1/2]⟩,
             ⟨⟨[some 1], [some 1]⟩, ["f"], [[some 0], [some 2]],
              [some 0, some 1], [0, 0], [1/2, 1/2]⟩]
    ∧ cv_train_test id (fun _ _ _ => [])
        (fun _ _ _ Xte => (Xte.map (fun _ => (0 : ℚ)), Xte.map (fun _ => (1 : ℚ)/2)))
        [("f", [some 0, some 2, some 0, some 2])]
        [some 0, some 1, some 0, some 1] (.kfold 2) (some "l1") 5 none
        (1/100) none
      = .ok ⟨[⟨[some 1], [some 1]⟩, ⟨[some 1], [some 1]⟩], [["f"], ["f"]],
             [[[some 0], [some 2]], [[some 0], [some 2]]],
             [[some 0, some 1], [some 0, some 1]],
             [0, 0, 0, 0], [[1/2, 1/2], [1/2, 1/2]]⟩ := by
  refine ⟨by decide, ?_⟩
  have h := cv_aggregation_amended id (fun _ _ _ => [])
    (fun _ _ _ Xte => (Xte.map (fun _ => (0 : ℚ)), Xte.map (fun _ => (1 : ℚ)/2)))
    [("f", [some 0, some 2, some 0, some 2])]
    [some 0, some 1, some 0, some 1] (.kfold 2) (some "l1") 5 none
    (1/100) none
    [⟨⟨[some 1], [some 1]⟩, ["f"], [[some 0], [some 2]],
      [some 0, some 1], [0, 0], [1/2, 1/2]⟩,
     ⟨⟨[some 1], [some 1]⟩, ["f"], [[some 0], [some 2]],
      [some 0, some 1], [0, 0], [1/2, 1/2]⟩] (by decide)
  simpa using h

-- Lookup / restriction lemmas used for the per-fold column handling.

theorem lookupFst_mem {β : Type} (nm : String) (l : List (String × β)) (b : β)
    (h : lookupFst nm l = some b) : (nm, b) ∈ l := by
  induction l with
  | nil => simp [lookupFst] at h
  | cons c t ih =>
    rw [lookupFst] at h
    split at h
    · next hc =>
        injection h with h
        subst h
        cases c with
        | mk n v =>
          simp only at hc
          subst hc
          exact List.mem_cons_self _ _
    · exact List.mem_cons_of_mem _ (ih h)

theorem lookupFst_isSome_of_mem {β : Type} (nm : String)
    (l : List (String × β)) (h : nm ∈ l.map Prod.fst) :
    ∃ b, lookupFst nm l = some b := by
  induction l with
  | nil => simp at h
  | cons c t ih =>
    rw [lookupFst]
    by_cases hc : c.1 = nm
    · exact ⟨c.2, by simp [hc]⟩
    · simp only [hc, if_false]
      apply ih
      simp only [List.map_cons, List.mem_cons] at h
      rcases h with h | h
      · exact absurd h.symm hc
      · exact h

theorem colNames_restrictCols (names : List String) (df : DFrame)
    (h : ∀ nm ∈ names, nm ∈ colNames df) :
    colNames (restrictCols names df) = names := by
  induction names with
  | nil => rfl
  | cons n t ih =>
    obtain ⟨b, hb⟩ := lookupFst_isSome_of_mem n df (h n (by simp))
    have ht := ih (fun nm hnm => h nm (List.mem_cons_of_mem _ hnm))
    simp only [restrictCols, List.filterMap_cons, hb, Option.map_some]
    simpa [colNames, restrictCols] using ht

theorem restrictCols_subset (names : List String) (df : DFrame) :
    ∀ pr ∈ restrictCols names df, pr ∈ df := by
  intro pr hpr
  simp only [restrictCols, List.mem_filterMap] at hpr
  rcases hpr with ⟨nm, _, heq⟩
  rcases Option.map_eq_some'.mp heq with ⟨vs, hvs, hpr⟩
  subst hpr
  exact lookupFst_mem nm df vs hvs

theorem colNames_dropNaAnyCols_subset (df : DFrame) :
    ∀ nm ∈ colNames (dropNaAnyCols df), nm ∈ colNames df := by
  intro nm hm
  simp only [colNames, dropNaAnyCols, List.mem_map, List.mem_filter] at hm ⊢
  rcases hm with ⟨c, ⟨hc, _⟩, hnm⟩
  exact ⟨c, hc, hnm⟩

theorem colNames_fillnaDF (df : DFrame) (vals : List (Option ℚ))
    (h : df.length ≤ vals.length) :
    colNames (fillnaDF df vals) = colNames df := by
  induction df generalizing vals with
  | nil => rfl
  | cons c t ih =>
    cases vals with
    | nil => simp at h
    | cons v vs =>
      simp only [fillnaDF, List.zipWith_cons_cons, colNames, List.map_cons]
      have := ih vs (by simpa using h)
      simp only [colNames] at this
      simp [fillnaDF] at this ⊢
      exact this

theorem feature_imputation_values_length (df : DFrame) (pol : String)
    (iv : List (Option ℚ)) (h : feature_imputation_values df pol = .ok iv) :
    iv.length = df.length := by
  unfold feature_imputation_values at h
  split_ifs at h <;> injection h with h <;> subst h <;> simp

/-- C7 (confirmed): in a fold with training partition `df_train` and test
partition `df_test` (same column list, no duplicate names), the column
drop retains exactly the training columns with no missing value, the test
partition is then restricted to exactly those surviving columns — with the
test partition's own values — and both matrices coming out of the fold's
NaN-handling step carry exactly the surviving column list. -/
theorem cv_fold_dropna_restrict (df_train df_test : DFrame)
    (h1 : (colNames df_train).Nodup)
    (h2 : colNames df_test = colNames df_train) :
    (∀ c ∈ df_train,
      (c.1 ∈ colNames (dropNaAnyCols df_train) ↔ c.2.all Option.isSome = true))
    ∧ colNames (restrictCols (colNames (dropNaAnyCols df_train)) df_test)
        = colNames (dropNaAnyCols df_train)
    ∧ (∀ pr ∈ restrictCols (colNames (dropNaAnyCols df_train)) df_test,
        pr ∈ df_test)
    ∧ ∀ (pol : Option String) (r : FoldRes),
        cvFoldStep df_train df_test pol = .ok r →
        colNames r.train = colNames (dropNaAnyCols df_train)
        ∧ colNames r.test = colNames (dropNaAnyCols df_train) := by
  have hsub : ∀ nm ∈ colNames (dropNaAnyCols df_train), nm ∈ colNames df_test := by
    intro nm hm
    rw [h2]
    exact colNames_dropNaAnyCols_subset df_train nm hm
  have hres : colNames (restrictCols (colNames (dropNaAnyCols df_train)) df_test)
      = colNames (dropNaAnyCols df_train) :=
    colNames_restrictCols _ df_test hsub
  refine ⟨?_, hres, restrictCols_subset _ df_test, ?_⟩
  · intro c hc
    constructor
    · intro hmem
      simp only [colNames, dropNaAnyCols, List.mem_map, List.mem_filter] at hmem
      rcases hmem with ⟨c2, ⟨hc2, hp⟩, hfst⟩
      have := List.inj_on_of_nodup_map h1 hc2 hc hfst
      rw [← this]
      exact hp
    · intro hp
      simp only [colNames, dropNaAnyCols, List.mem_map, List.mem_filter]
      exact ⟨c, ⟨hc, hp⟩, rfl⟩
  · intro pol r h
    have hlenres : (restrictCols (colNames (dropNaAnyCols df_train)) df_test).length
        = (dropNaAnyCols df_train).length := by
      have := congrArg List.length hres
      simpa [colNames] using this
    cases pol with
    | none =>
      rw [cvFoldStep] at h
      injection h with h
      subst h
      exact ⟨rfl, hres⟩
    | some p =>
      rw [cvFoldStep] at h
      cases hfi : feature_imputation_values (dropNaAnyCols df_train) p with
      | error e => rw [hfi] at h; exact absurd h (by simp)
      | ok iv =>
        rw [hfi] at h
        injection h with h
        subst h
        have hlen := feature_imputation_values_length _ _ _ hfi
        constructor
        · exact colNames_fillnaDF _ _ (by rw [hlen])
        · rw [colNames_fillnaDF _ _ (by rw [hlen, ← hlenres])]
          exact hres

/-- Witness for C7 at a concrete fold (training column "b" has a missing
value and is dropped; the test partition keeps its own values). -/
theorem cv_fold_dropna_restrict_w :
    ((colNames [("a", [some 1]), ("b", [none])]).Nodup
      ∧ colNames [("a", [some 5]), ("b", [some 6])]
          = colNames [("a", [some 1]), ("b", [none])])
    ∧ colNames (restrictCols
        (colNames (dropNaAnyCols [("a", [some 1]), ("b", [none])]))
        [("a", [some 5]), ("b", [some 6])])
      = colNames (dropNaAnyCols [("a", [some 1]), ("b", [none])]) :=
  ⟨⟨by decide, by decide⟩,
   (cv_fold_dropna_restrict [("a", [some 1]), ("b", [none])]
      [("a", [some 5]), ("b", [some 6])] (by decide) (by decide)).2.1⟩

/-- C8 (counterexample): the training partition has a missing binary
target at row 2, yet `train_test` passes the label vector to the
classifier fit verbatim: a probe fit that echoes its label argument
(mapping a missing label to the marker 9) shows the missing-target row
reaching the fit rather than being excluded. -/
theorem train_test_fit_missing_label_cex :
    (train_test id (fun _ _ yy _ => (yy.map (fun o => o.getD 9), []))
        (some "l1") 42 5 [[some 1], [some 2], [some 3]] []
        [some 0, some 1, none]).map TTRes.y_pred
      = .ok [0, 1, 9]
    ∧ ([some 0, some 1, none] : List (Option ℚ))[2]? = some none := by decide

/-- C8 (amended): missing-target rows belong to neither comparison group
of the feature selector (`np.where(y == 0)` / `np.where(y == 1)` skip
NaN), but they are *not* excluded from the classifier fit: `train_test`
hands the training labels to the fit verbatim, missing entries included. -/
theorem missing_labels_amended :
    (∀ (y : List (Option ℚ)) (i : ℕ), y[i]? = some none →
        i ∉ whereEq y 0 ∧ i ∉ whereEq y 1)
    ∧ ∀ (sqr : ℚ → ℚ) (g : List (Option ℚ) → List ℚ × List ℚ)
        (penalty : Option String) (seed folds : ℕ) (Xtr Xte : MatO)
        (ytr : List (Option ℚ)) (r : TTRes),
        train_test sqr (fun _ _ yy _ => g yy) penalty seed folds Xtr Xte ytr
          = .ok r →
        (r.y_pred, r.y_pred_prob) = g ytr := by
  constructor
  · intro y i hy
    have hval : y.getD i none = none := by
      rw [List.getD_eq_getElem?_getD, hy]
      rfl
    constructor <;>
      · intro hm
        simp only [whereEq, List.mem_filter, List.mem_range,
          decide_eq_true_eq] at hm
        rw [hval] at hm
        exact Option.noConfusion hm.2
  · intro sqr g penalty seed folds Xtr Xte ytr r h
    unfold train_test at h
    split at h
    · exact absurd h (by simp)
    · injection h with h
      subst h
      rfl

/-- Witness for C8 (amended) at a concrete label vector with a missing
entry at index 2. -/
theorem missing_labels_amended_w :
    (([some 0, some 1, none] : List (Option ℚ))[2]? = some none)
    ∧ 2 ∉ whereEq [some 0, some 1, none] 0 :=
  ⟨by decide, (missing_labels_amended.1 [some 0, some 1, none] 2 (by decide)).1⟩

-- Sum/mean/variance algebra for the scaler.

theorem sum_map_div (xs : List ℚ) (f : ℚ → ℚ) (c : ℚ) :
    (xs.map (fun x => f x / c)).sum = (xs.map f).sum / c := by
  induction xs with
  | nil => simp
  | cons x t ih => simp [ih, add_div]

theorem sum_map_sub_const (xs : List ℚ) (c : ℚ) :
    (xs.map (fun x => x - c)).sum = xs.sum - (xs.length : ℚ) * c := by
  induction xs with
  | nil => simp
  | cons x t ih =>
    simp only [List.map_cons, List.sum_cons, ih, List.length_cons]
    push_cast
    ring

theorem length_ne_zeroQ (xs : List ℚ) (h : xs ≠ []) : (xs.length : ℚ) ≠ 0 := by
  have : xs.length ≠ 0 := by simpa [List.length_eq_zero] using h
  exact_mod_cast this

theorem sum_centered (xs : List ℚ) (h : xs ≠ []) :
    (xs.map (fun x => x - meanQ xs)).sum = 0 := by
  have hn := length_ne_zeroQ xs h
  rw [sum_map_sub_const, meanQ]
  field_simp

theorem meanQ_standardize (xs : List ℚ) (h : xs ≠ []) (σ : ℚ) :
    meanQ (standardizeCol xs σ) = 0 := by
  rw [meanQ, standardizeCol]
  rw [sum_map_div xs (fun x => x - meanQ xs) σ, sum_centered xs h]
  simp

theorem varPop_standardize (xs : List ℚ) (h : xs ≠ []) (σ : ℚ)
    (hσ2 : σ * σ = varPop xs) (hσ0 : σ ≠ 0) :
    varPop (standardizeCol xs σ) = 1 := by
  have hn := length_ne_zeroQ xs h
  have hmean := meanQ_standardize xs h σ
  unfold varPop
  rw [hmean]
  simp only [sub_zero]
  rw [standardizeCol, List.map_map]
  have hmm : (xs.map ((fun z : ℚ => z ^ 2) ∘ (fun x => (x - meanQ xs) / σ)))
      = xs.map (fun x => (x - meanQ xs) ^ 2 / σ ^ 2) := by
    apply List.map_congr_left
    intro a _
    simp [div_pow]
  rw [hmm, sum_map_div xs (fun x => (x - meanQ xs) ^ 2) (σ ^ 2)]
  simp only [List.length_map]
  have hS : (xs.map (fun x => (x - meanQ xs) ^ 2)).sum
      = (σ * σ) * (xs.length : ℚ) := by
    rw [hσ2]
    unfold varPop
    rw [div_mul_cancel₀ _ hn]
  rw [hS, pow_two]
  field_simp

/-- C9 (counterexample): a training matrix whose single feature is
constant.  The fitted scaler stores mean 1 and (squared) scale 1 — the
scikit-learn convention for zero-variance features — so here `id` is the
exact square root and the transform is exact: the transformed training
column is [0, 0], whose variance is 0, not (even approximately) 1. -/
theorem scaler_zero_variance_cex :
    scalerFit [[some 1], [some 1]] = ⟨[some 1], [some 1]⟩
    ∧ scalerTransformWith id (scalerFit [[some 1], [some 1]])
        [[some 1], [some 1]] = [[some 0], [some 0]]
    ∧ varPop [0, 0] = 0
    ∧ (0 : ℚ) ≠ 1 := by decide

/-- C9 (amended): for every training feature column with *nonzero*
variance, the fitted standardization maps it to exactly zero mean and
exactly unit variance in exact arithmetic (σ is the stored scale,
σ² = variance); and the scaler handed back by `train_test` after the test
transform is exactly the scaler fitted on the training matrix — the test
transform does not alter the stored parameters. -/
theorem scaler_standardize_amended (xs : List ℚ) (σ : ℚ) (h : xs ≠ [])
    (hσ2 : σ * σ = varPop xs) (hσ0 : σ ≠ 0) :
    (meanQ (standardizeCol xs σ) = 0 ∧ varPop (standardizeCol xs σ) = 1)
    ∧ ∀ (sqr : ℚ → ℚ)
        (fp : ModelCfg → MatO → List (Option ℚ) → MatO → List ℚ × List ℚ)
        (penalty : Option String) (seed folds : ℕ) (Xtr Xte : MatO)
        (ytr : List (Option ℚ)) (r : TTRes),
        train_test sqr fp penalty seed folds Xtr Xte ytr = .ok r →
        r.scaler = scalerFit Xtr := by
  refine ⟨⟨meanQ_standardize xs h σ, varPop_standardize xs h σ hσ2 hσ0⟩, ?_⟩
  intro sqr fp penalty seed folds Xtr Xte ytr r hr
  unfold train_test at hr
  split at hr
  · exact absurd hr (by simp)
  · injection hr with hr
    subst hr
    rfl

/-- Witness for C9 (amended) at the concrete column [0, 4] with stored
scale 2 (variance 4). -/
theorem scaler_standardize_amended_w :
    (([0, 4] : List ℚ) ≠ [] ∧ (2 : ℚ) * 2 = varPop [0, 4] ∧ (2 : ℚ) ≠ 0)
    ∧ meanQ (standardizeCol [0, 4] 2) = 0
    ∧ varPop (standardizeCol [0, 4] 2) = 1 :=
  ⟨⟨by decide, by decide, by decide⟩,
   (scaler_standardize_amended [0, 4] 2 (by decide) (by decide) (by decide)).1⟩
